import Mathlib

/-!
Shallow embedding of the GPU-yield ingestion/aggregation pipeline
(`src/scrapper/main.py`, `src/scrapper/utils/publish.py`,
`src/scrapper/plugins/io_net.py`, `src/api/main.py`).

Python strings are modelled as `List Char`; Python numbers as `ℚ`/`ℤ`;
Python dicts as association lists with first-key-wins lookup; exceptions as
`Option`/`Except`.  Definitions follow the source line by line, with each
Python string primitive (upper, strip, title, replace, containment) given
Python's semantics on the ASCII inputs the pipeline handles.
-/

set_option maxHeartbeats 1600000
set_option maxRecDepth 2048

namespace GpuYield

/-- Python `str` values, modelled as lists of characters. -/
abbrev PyStr := List Char

/-- `pat` is a leading segment of `s` (Python `s.startswith(pat)`). -/
def pyStartsWith : PyStr → PyStr → Bool
  | [], _ => true
  | _ :: _, [] => false
  | p :: ps, c :: cs => p == c && pyStartsWith ps cs

/-- Python substring containment (`pat in s`). -/
def pyContains (pat : PyStr) : PyStr → Bool
  | [] => pat.isEmpty
  | c :: cs => pyStartsWith pat (c :: cs) || pyContains pat cs

/-- Worker for `pyReplace` with a non-empty pattern `p :: ps`: scans left to
right, replaces each non-overlapping occurrence, and continues scanning
after the replaced occurrence (Python `str.replace` semantics).  The fuel
argument (instantiated with the string's length, which bounds the number of
recursive steps since every step consumes at least one character) keeps the
recursion structural so that the kernel can evaluate it. -/
def pyReplaceAux (p : Char) (ps rep : PyStr) : ℕ → PyStr → PyStr
  | 0, s => s
  | _ + 1, [] => []
  | n + 1, c :: cs =>
    if pyStartsWith (p :: ps) (c :: cs) then
      rep ++ pyReplaceAux p ps rep n (cs.drop ps.length)
    else
      c :: pyReplaceAux p ps rep n cs

/-- Python `s.replace(pat, rep)`.  The source only calls it with non-empty
patterns; the empty-pattern case is mapped to the identity. -/
def pyReplace (pat rep s : PyStr) : PyStr :=
  match pat with
  | [] => s
  | p :: ps => pyReplaceAux p ps rep s.length s

/-- Python `s.strip()` on ASCII whitespace. -/
def pyStrip (s : PyStr) : PyStr :=
  ((s.dropWhile Char.isWhitespace).reverse.dropWhile Char.isWhitespace).reverse

/-- Python `s.upper()` (ASCII). -/
def pyUpper (s : PyStr) : PyStr := s.map Char.toUpper

/-- Worker for `pyTitle`: the flag records whether the previous character was
cased (alphabetic). -/
def pyTitleAux : Bool → PyStr → PyStr
  | _, [] => []
  | prevCased, c :: cs =>
    if c.isAlpha then
      (if prevCased then c.toLower else c.toUpper) :: pyTitleAux true cs
    else
      c :: pyTitleAux false cs

/-- Python `s.title()` (ASCII): uppercase each letter that follows a
non-letter, lowercase the other letters. -/
def pyTitle (s : PyStr) : PyStr := pyTitleAux false s

namespace Scrapper

/-- `normalize_gpu_name` from `src/scrapper/main.py` (lines 261-283):
empty-name sentinel, uppercase+strip, vendor-prefix removal, RTX
re-placement when "RTX" occurs but not within the first three characters,
spacing fixes for RTX 40xx, and a final `title()`. -/
def normalize_gpu_name (gpu_name : PyStr) : PyStr :=
  if gpu_name.isEmpty then "Unknown".data
  else
    let g1 := pyUpper (pyStrip gpu_name)
    let g2 := pyReplace "NVIDIA ".data "".data g1
    let g3 := pyReplace "AMD ".data "".data g2
    let g4 := pyReplace "GEFORCE ".data "".data g3
    let g5 := pyReplace "RADEON ".data "".data g4
    let g6 :=
      if pyContains "RTX".data g5 && !pyContains "RTX".data (g5.take 3) then
        "RTX ".data ++ pyStrip (pyReplace "RTX".data "".data g5)
      else g5
    let g7 := pyReplace "RTX4090".data "RTX 4090".data g6
    let g8 := pyReplace "RTX4080".data "RTX 4080".data g7
    let g9 := pyReplace "RTX4070".data "RTX 4070".data g8
    pyTitle g9

end Scrapper

namespace IoNet

/-- `normalize_gpu_name` from `src/scrapper/plugins/io_net.py` (lines
348-390): like the `scrapper/main.py` variant but with `startswith` for the
RTX rule, RTX 30xx spacing fixes, and datacenter-GPU shortcuts
(H100 / A100 ±memory / V100 / T4 / A6000). -/
def normalize_gpu_name (gpu_name : PyStr) : PyStr :=
  if gpu_name.isEmpty then "Unknown".data
  else
    let g1 := pyUpper (pyStrip gpu_name)
    let g2 := pyReplace "NVIDIA ".data "".data g1
    let g3 := pyReplace "AMD ".data "".data g2
    let g4 := pyReplace "GEFORCE ".data "".data g3
    let g5 := pyReplace "RADEON ".data "".data g4
    let g6 :=
      if pyContains "RTX".data g5 && !pyStartsWith "RTX".data g5 then
        "RTX ".data ++ pyStrip (pyReplace "RTX".data "".data g5)
      else g5
    let g7 := pyReplace "RTX4090".data "RTX 4090".data g6
    let g8 := pyReplace "RTX4080".data "RTX 4080".data g7
    let g9 := pyReplace "RTX4070".data "RTX 4070".data g8
    let g10 := pyReplace "RTX3090".data "RTX 3090".data g9
    let g11 := pyReplace "RTX3080".data "RTX 3080".data g10
    let g12 := pyReplace "RTX3070".data "RTX 3070".data g11
    let g13 := pyReplace "RTX3060".data "RTX 3060".data g12
    if pyContains "H100".data g13 then "H100".data
    else if pyContains "A100".data g13 then
      if pyContains "80GB".data g13 || pyContains "80G".data g13 then "A100 80GB".data
      else if pyContains "40GB".data g13 || pyContains "40G".data g13 then "A100 40GB".data
      else "A100".data
    else if pyContains "V100".data g13 then "V100".data
    else if pyContains "T4".data g13 then "T4".data
    else if pyContains "A6000".data g13 then "A6000".data
    else pyTitle g13

end IoNet

/-! ## Python values and dicts -/

/-- A Python value as it occurs in the pipeline's records: `None`, a string,
an int, a float (modelled as an exact rational), or a bool. -/
inductive PyVal where
  | vnone
  | vstr (s : PyStr)
  | vint (n : ℤ)
  | vnum (q : ℚ)
  | vbool (b : Bool)
deriving DecidableEq, Repr

/-- A Python dict with string keys, modelled as an association list;
lookups return the first binding of a key. -/
abbrev PyDict := List (String × PyVal)

/-- `d[k]` as an `Option` (`None` when the key is absent). -/
def dget (d : PyDict) (k : String) : Option PyVal :=
  match d.find? (fun kv => kv.1 == k) with
  | some kv => some kv.2
  | none => none

/-- Python `d.get(k, v)`. -/
def dgetD (d : PyDict) (k : String) (v : PyVal) : PyVal := (dget d k).getD v

/-- Python `d.get(k)` (default `None`). -/
def dgetN (d : PyDict) (k : String) : PyVal := dgetD d k .vnone

/-- Python `k in d`. -/
def dhas (d : PyDict) (k : String) : Bool := (dget d k).isSome

/-- Python truthiness of a value. -/
def truthy : PyVal → Bool
  | .vnone => false
  | .vstr s => !s.isEmpty
  | .vint n => n != 0
  | .vnum q => q != 0
  | .vbool b => b

/-- Python `x or y`. -/
def pyOr (x y : PyVal) : PyVal := if truthy x then x else y

/-- Accumulates a run of decimal digits: returns the value read so far, the
number of digits consumed, and the rest of the string. -/
def parseDigitsAux : ℕ → ℕ → PyStr → ℕ × ℕ × PyStr
  | acc, cnt, [] => (acc, cnt, [])
  | acc, cnt, c :: cs =>
    if c.isDigit then parseDigitsAux (10 * acc + (c.toNat - 48)) (cnt + 1) cs
    else (acc, cnt, c :: cs)

/-- Python `float(s)` on the decimal literals the pipeline handles: optional
surrounding whitespace, optional sign, digits with an optional fractional
part (the exponent/inf/nan forms accepted by Python do not occur in the
pipeline's data and are mapped to a parse failure). -/
def pyParseFloat (s : PyStr) : Option ℚ :=
  let t := pyStrip s
  let sgned : ℤ × PyStr :=
    match t with
    | '-' :: r => (-1, r)
    | '+' :: r => (1, r)
    | r => (1, r)
  let (ip, c1, t2) := parseDigitsAux 0 0 sgned.2
  match t2 with
  | '.' :: r =>
    let (fp, c2, t3) := parseDigitsAux 0 0 r
    if c1 + c2 = 0 ∨ t3 ≠ [] then none
    else some (mkRat (sgned.1 * ((ip * 10 ^ c2 + fp : ℕ) : ℤ)) (10 ^ c2))
  | [] => if c1 = 0 then none else some (mkRat (sgned.1 * (ip : ℤ)) 1)
  | _ => none

/-- Python `int(s)` on strings: optional whitespace and sign, then decimal
digits only (a fractional part is a `ValueError`). -/
def pyParseInt (s : PyStr) : Option ℤ :=
  let t := pyStrip s
  let sgned : ℤ × PyStr :=
    match t with
    | '-' :: r => (-1, r)
    | '+' :: r => (1, r)
    | r => (1, r)
  let (ip, c1, t2) := parseDigitsAux 0 0 sgned.2
  if c1 = 0 ∨ t2 ≠ [] then none else some (sgned.1 * (ip : ℤ))

/-- Python `float(x)`; `none` models the `ValueError`/`TypeError` raised on
values that do not convert. -/
def pyFloat : PyVal → Option ℚ
  | .vint n => some (mkRat n 1)
  | .vnum q => some q
  | .vbool b => some (if b then 1 else 0)
  | .vstr s => pyParseFloat s
  | .vnone => none

/-- Executable floor of a rational (the `Int.floor` of Mathlib does not
evaluate inside the kernel). -/
def ratFloor (q : ℚ) : ℤ := q.num / (q.den : ℤ)

/-- Kernel-executable rational addition: the `Rat.add` underlying `+` on
`ℚ` does not evaluate inside the kernel, `mkRat` does. -/
def qAdd (a b : ℚ) : ℚ := mkRat (a.num * (b.den : ℤ) + b.num * (a.den : ℤ)) (a.den * b.den)

/-- Kernel-executable rational subtraction. -/
def qSub (a b : ℚ) : ℚ := mkRat (a.num * (b.den : ℤ) - b.num * (a.den : ℤ)) (a.den * b.den)

/-- Kernel-executable rational multiplication. -/
def qMul (a b : ℚ) : ℚ := mkRat (a.num * b.num) (a.den * b.den)

/-- Truncation toward zero, as Python `int(float)` (the denominator of a
`Rat` is positive, so `Int.tdiv` of the components is exactly it). -/
def truncQ (q : ℚ) : ℤ := Int.tdiv q.num (q.den : ℤ)

/-- Python `int(x)`; `none` models the exception raised on values that do
not convert. -/
def pyInt : PyVal → Option ℤ
  | .vint n => some n
  | .vnum q => some (truncQ q)
  | .vbool b => some (if b then 1 else 0)
  | .vstr s => pyParseInt s
  | .vnone => none

/-- Python `str(x)`.  Numeric values are rendered via `toString`; the
pipeline only applies `str` to values it later treats as opaque labels, so
the exact rendering of numbers is immaterial to the claims. -/
def pyStrOf : PyVal → PyStr
  | .vstr s => s
  | .vint n => (toString n).data
  | .vnum q => (toString q).data
  | .vbool b => (if b then "True" else "False").data
  | .vnone => "None".data

/-! ## Scraper normalization (`src/scrapper/main.py`) -/

namespace Scrapper

/-- `MIN_DATA_QUALITY_SCORE` (`src/scrapper/main.py` line 67, default 0.5).
Defined in the source but never consulted anywhere. -/
def MIN_DATA_QUALITY_SCORE : ℚ := mkRat 1 2

/-- Rounding half to even, as Python `round`. -/
def roundHalfEven (q : ℚ) : ℤ :=
  let f := ratFloor q
  let r := qSub q (mkRat f 1)
  if r < mkRat 1 2 then f
  else if r > mkRat 1 2 then f + 1
  else if f % 2 = 0 then f else f + 1

/-- Python `round(x, 4)`, on exact rationals. -/
def pyRound4 (q : ℚ) : ℚ := mkRat (roundHalfEven (qMul q (mkRat 10000 1))) 10000

/-- `validate_price` (`src/scrapper/main.py` lines 285-300): convert to
float (`None` on failure), reject non-positive, above 100, or below 0.001,
otherwise round to 4 decimals. -/
def validate_price (price : PyVal) : Option ℚ :=
  match pyFloat price with
  | none => none
  | some p =>
    if p ≤ 0 then none
    else if p > 100 then none
    else if p < mkRat 1 1000 then none
    else some (pyRound4 p)

/-- `calculate_quality_score` (`src/scrapper/main.py` lines 398-415):
additive presence weights capped at 1. -/
def calculate_quality_score (item : PyDict) : ℚ :=
  let s1 : ℚ := if truthy (dgetN item "gpu_name") || truthy (dgetN item "displayName") then mkRat 3 10 else 0
  let s2 : ℚ := if truthy (dgetN item "dph_total") || truthy (dgetN item "costPerHr") then qAdd s1 (mkRat 4 10) else s1
  let s3 : ℚ := if truthy (dgetN item "geolocation") || truthy (dgetN item "region") then qAdd s2 (mkRat 1 10) else s2
  let s4 : ℚ := if truthy (dgetN item "id") then qAdd s3 (mkRat 1 10) else s3
  let s5 : ℚ := if truthy (dgetN item "num_gpus") || truthy (dgetN item "availability") then qAdd s4 (mkRat 1 10) else s4
  if s5 ≤ 1 then s5 else 1

/-- The raw-field extraction of `normalize_and_publish`
(`src/scrapper/main.py` lines 345-362): per-source mapping of the raw item
to (gpu model, price, region, availability) values. -/
structure Extracted where
  gpu : PyVal
  price : PyVal
  region : PyVal
  avail : PyVal

/-- Source-specific field mapping (`src/scrapper/main.py` lines 345-362). -/
def extractFields (source : String) (item : PyDict) : Extracted :=
  if source = "vast.ai" then
    { gpu := pyOr (dgetN item "gpu_name") (dgetD item "gpu_display_name" (.vstr "Unknown".data))
      price := pyOr (dgetN item "dph_total") (dgetD item "cost_per_hr" (.vint 0))
      region := dgetD item "geolocation" (.vstr "Unknown".data)
      avail := dgetD item "num_gpus" (.vint 1) }
  else if source = "runpod" then
    { gpu := dgetD item "displayName" (.vstr "Unknown".data)
      price := dgetD item "costPerHr" (.vint 0)
      region := .vstr "Global".data
      avail := .vint 1 }
  else
    { gpu := pyOr (dgetN item "gpu_model") (dgetD item "model" (.vstr "Unknown".data))
      price := pyOr (dgetN item "price") (dgetD item "hourly_price" (.vint 0))
      region := dgetD item "region" (.vstr "Unknown".data)
      avail := dgetD item "availability" (.vint 1) }

/-- `normalize_gpu_name` applied to a raw field value.  A falsy value hits
the `if not gpu_name` guard and yields "Unknown"; a truthy non-string
raises `AttributeError` on `.upper()` (modelled as `none`), which the
per-record handler turns into a skip. -/
def normalizeGpuVal (v : PyVal) : Option PyStr :=
  if !truthy v then some "Unknown".data
  else
    match v with
    | .vstr s => some (normalize_gpu_name s)
    | _ => none

/-- `max(1, int(availability)) if availability else 1`
(`src/scrapper/main.py` line 376); `none` models the `ValueError` raised by
`int()` on a truthy unparseable value, which skips the whole record. -/
def availNorm (v : PyVal) : Option ℤ :=
  if truthy v then (pyInt v).map (fun n => max 1 n) else some 1

/-- `str(region)[:50]` (`src/scrapper/main.py` line 375). -/
def regionNorm (v : PyVal) : PyStr := (pyStrOf v).take 50

/-- One iteration of the per-item loop of `normalize_and_publish`
(`src/scrapper/main.py` lines 342-385) for non-aws sources: extract raw
fields, normalize the GPU name, validate the price (skipping the record on
a falsy result), and build the standardized offer dict.  `none` covers both
the `continue` on an invalid price and the `except` that skips a record
whose processing raised. -/
def processItem (source : String) (item : PyDict) : Option PyDict :=
  let f := extractFields source item
  match normalizeGpuVal f.gpu with
  | none => none
  | some model =>
    match validate_price f.price with
    | none => none
    | some p =>
      if p = 0 then none
      else
        match availNorm f.avail with
        | none => none
        | some a =>
          some [("model", .vstr model), ("usd_hr", .vnum p),
                ("region", .vstr (regionNorm f.region)),
                ("availability", .vint a),
                ("id", dgetD item "id" (.vstr "".data)),
                ("quality_score", .vnum (calculate_quality_score item))]

end Scrapper

/-! ## Stream publisher (`src/scrapper/utils/publish.py`) -/

/-- The Redis connection together with the `raw_prices` stream state.
`xaddFail n = true` makes the `n`-th `xadd` call on this connection raise
(modelling a transient Redis error); `trimFail` makes `xtrim` raise.
`appended` counts every record ever successfully appended (it is not
affected by trimming). -/
structure Conn where
  stream : List PyDict
  appended : ℕ
  ops : ℕ
  xaddFail : ℕ → Bool
  trimFail : Bool

/-- `redis_conn.xadd(stream_name, payload)`: appends the payload, or raises
according to the failure plan.  The Boolean reports success. -/
def xadd (c : Conn) (p : PyDict) : Bool × Conn :=
  if c.xaddFail c.ops then
    (false, { c with ops := c.ops + 1 })
  else
    (true, { c with stream := c.stream ++ [p], appended := c.appended + 1, ops := c.ops + 1 })

/-- `redis_conn.xtrim(stream_name, maxlen=50000, approximate=True)`
(`src/scrapper/utils/publish.py` line 121), modelled as keeping the last
50000 entries; a raising trim (caught by the source) leaves the stream
unchanged. -/
def xtrim (c : Conn) : Conn :=
  if c.trimFail then c
  else { c with stream := c.stream.drop (c.stream.length - 50000) }

/-- The per-offer payload construction of `publish_to_redis`
(`src/scrapper/utils/publish.py` lines 49-106): skip a non-dict or
incomplete offer (`model`/`usd_hr`/`region` keys required), convert
`usd_hr` with `float` (a failure skips the record), stringify the other
fields, and extend with the source-specific fields.  Stringification of a
numeric field keeps the numeric value (`str`/`float` round-trip exactly in
Python). -/
def mkPayload (source : String) (ts : PyStr) (offer : PyDict) : Option PyDict :=
  if !(dhas offer "model" && dhas offer "usd_hr" && dhas offer "region") then none
  else
    match pyFloat (dgetN offer "usd_hr") with
    | none => none
    | some p =>
      let base : PyDict :=
        [("timestamp", .vstr ts), ("iso_timestamp", .vstr ts),
         ("cloud", .vstr source.data), ("provider", .vstr source.data),
         ("gpu_model", .vstr (pyStrOf (dgetN offer "model"))),
         ("price_usd_hr", .vnum p),
         ("region", .vstr (pyStrOf (dgetN offer "region"))),
         ("availability", .vstr (pyStrOf (dgetD offer "availability" (.vint 1)))),
         ("source_record_id", .vstr (pyStrOf (dgetD offer "id" (.vstr "".data)))),
         ("data_quality_score", dgetD offer "quality_score" (.vnum 1)),
         ("synthetic", .vstr (if truthy (dgetD offer "synthetic" (.vbool false))
                              then "true".data else "false".data))]
      let extra : PyDict :=
        if source = "aws_spot" then
          [("instance_type", .vstr (pyStrOf (dgetD offer "instance_type" (.vstr "".data)))),
           ("total_instance_price", .vstr (pyStrOf (dgetD offer "total_instance_price" (.vint 0)))),
           ("gpu_memory_gb", .vstr (pyStrOf (dgetD offer "gpu_memory_gb" (.vint 16))))]
        else if source = "akash" then
          [("provider_address", .vstr (pyStrOf (dgetD offer "provider_address" (.vstr "".data)))),
           ("bid_id", .vstr (pyStrOf (dgetD offer "bid_id" (.vstr "".data)))),
           ("state", .vstr (pyStrOf (dgetD offer "state" (.vstr "active".data)))),
           ("token_price", .vstr (pyStrOf (dgetD offer "token_price" (.vint 0)))),
           ("original_currency", .vstr (pyStrOf (dgetD offer "original_currency" (.vstr "".data))))]
        else if source = "runpod" ∨ source = "vast.ai" ∨ source = "io_net" then
          [("gpu_memory_gb", .vstr (pyStrOf (dgetD offer "gpu_memory_gb" (.vint 0)))),
           ("location", .vstr (pyStrOf (dgetD offer "location" (.vstr "".data))))]
        else []
      some (base ++ extra)

/-- One iteration of the per-offer loop of `publish_to_redis`: a record
whose payload construction raises or that is incomplete is skipped; an
`xadd` failure is caught and skipped; a success increments the count. -/
def publishOne (source : String) (ts : PyStr) (acc : ℕ × Conn) (offer : PyDict) : ℕ × Conn :=
  match mkPayload source ts offer with
  | none => acc
  | some p =>
    let r := xadd acc.2 p
    (if r.1 then acc.1 + 1 else acc.1, r.2)

/-- `publish_to_redis` (`src/scrapper/utils/publish.py` lines 15-126):
empty batches return 0 immediately; otherwise each offer is published with
continue-on-error semantics, the stream is trimmed (trim errors are caught
and ignored), and the number of successfully published records is
returned. -/
def publish_to_redis (source : String) (ts : PyStr) (offers : List PyDict) (conn : Conn) : ℕ × Conn :=
  if offers.isEmpty then (0, conn)
  else
    let r := offers.foldl (publishOne source ts) (0, conn)
    (r.1, xtrim r.2)

/-- `normalize_and_publish` (`src/scrapper/main.py` lines 302-396): the
`aws_spot` source's offers are passed to `publish_to_redis` as-is; every
other source's offers go through the per-item normalization loop first.
`data` stands for the source's extracted offers list (the unwrapping of
the provider response envelope is elided). -/
def normalize_and_publish (source : String) (ts : PyStr) (data : List PyDict) (conn : Conn) : ℕ × Conn :=
  if source = "aws_spot" then publish_to_redis source ts data conn
  else publish_to_redis source ts (data.filterMap (Scrapper.processItem source)) conn

/-! ## Scrape orchestrator (`src/scrapper/main.py`) -/

/-- Outcome of one `fetch_data` call: truthy data, a falsy/`None` result,
or an exception escaping the call. -/
inductive FetchOutcome where
  | ok (data : List PyDict)
  | nodata
  | raise
deriving Inhabited

/-- A provider's fetch behavior: the outcome of its `n`-th `fetch_data`
call within a cycle. -/
abbrev FetchBehavior := ℕ → FetchOutcome

/-- `run_scrape_job` (`src/scrapper/main.py` lines 417-442): iterate over
the configured sources; each provider's `fetch_data` is called exactly once
(the loop body calls `fetch_data`, not `fetch_data_with_retry`); falsy data
is logged and skipped; an exception is caught by the per-provider
`try`/`except` and the loop continues with the next provider. -/
def scrapeStep (ts : PyStr) (acc : ℕ × Conn) (pr : String × FetchBehavior) : ℕ × Conn :=
  match pr.2 0 with
  | .ok data =>
    let r := normalize_and_publish pr.1 ts data acc.2
    (acc.1 + r.1, r.2)
  | .nodata => acc
  | .raise => acc

def run_scrape_job (ts : PyStr) (providers : List (String × FetchBehavior)) (conn : Conn) : ℕ × Conn :=
  providers.foldl (scrapeStep ts) (0, conn)

/-- The retry loop of `fetch_data_with_retry` (`src/scrapper/main.py`
lines 239-259), recursing on the number of loop iterations left.  Returns
the fetched data, the number of `fetch_data` calls made, and the list of
back-off sleep durations (`2 ** attempt` seconds) in order. -/
def retryLoop (behavior : FetchBehavior) : ℕ → ℕ → Option (List PyDict) × ℕ × List ℕ
  | _, 0 => (none, 0, [])
  | attempt, rem + 1 =>
    match behavior attempt with
    | .ok d => (some d, 1, [])
    | _ =>
      if rem = 0 then (none, 1, [])
      else
        let r := retryLoop behavior (attempt + 1) rem
        (r.1, r.2.1 + 1, 2 ^ attempt :: r.2.2)

/-- `fetch_data_with_retry` (`src/scrapper/main.py` lines 239-259,
`max_retries` defaulting to 2, hence up to `max_retries + 1` calls).  This
helper is defined in the source but never invoked. -/
def fetch_data_with_retry (behavior : FetchBehavior) (max_retries : ℕ) : Option (List PyDict) × ℕ × List ℕ :=
  retryLoop behavior 0 (max_retries + 1)

/-! ## Read path: the `/delta` aggregation (`src/api/main.py`) -/

/-- A value of the `best_offers` dict of `get_delta`
(`src/api/main.py` lines 276-281). -/
structure BestOffer where
  gpu_model : PyVal
  best_source : PyVal
  price_usd_hr : ℚ
  last_updated : PyVal
deriving DecidableEq, Repr

/-- The filter chain of the `get_delta` scan (`src/api/main.py` lines
257-271): require truthy `gpu_model`, `price_usd_hr` and `cloud` fields,
a parseable price (a `ValueError` skips the entry), and a price within
`0 < price ≤ 50`.  Returns the extracted (gpu_model, price, cloud,
timestamp). -/
def entryQual (e : PyDict) : Option (PyVal × ℚ × PyVal × PyVal) :=
  let gm := dgetN e "gpu_model"
  let ps := dgetN e "price_usd_hr"
  let cl := dgetN e "cloud"
  let tsv := dgetN e "timestamp"
  if !(truthy gm && truthy ps && truthy cl) then none
  else
    match pyFloat ps with
    | none => none
    | some p => if p ≤ 0 || p > 50 then none else some (gm, p, cl, tsv)

/-- First-binding lookup in the `best_offers` dict. -/
def lookupBO : List (PyVal × BestOffer) → PyVal → Option BestOffer
  | [], _ => none
  | (k, v) :: rest, key => if k = key then some v else lookupBO rest key

/-- Python dict assignment `best_offers[key] = v`: replace in place if the
key is present, append otherwise (insertion order is preserved). -/
def setBO : List (PyVal × BestOffer) → PyVal → BestOffer → List (PyVal × BestOffer)
  | [], key, v => [(key, v)]
  | (k, w) :: rest, key, v =>
    if k = key then (key, v) :: rest else (k, w) :: setBO rest key v

/-- One iteration of the `get_delta` scan loop (`src/api/main.py` lines
257-284): a qualifying entry replaces the stored offer for its model when
its price is strictly higher ("Update if this is the highest price for
this GPU model"). -/
def considerEntry (m : List (PyVal × BestOffer)) (e : PyDict) : List (PyVal × BestOffer) :=
  match entryQual e with
  | none => m
  | some (gm, p, cl, tsv) =>
    match lookupBO m gm with
    | none => setBO m gm ⟨gm, cl, p, tsv⟩
    | some bo => if p > bo.price_usd_hr then setBO m gm ⟨gm, cl, p, tsv⟩ else m

/-- The `best_offers` dict built by the `get_delta` scan over the stream
entries (given in the most-recent-first order of `xrevrange`). -/
def get_delta_scan (entries : List PyDict) : List (PyVal × BestOffer) :=
  entries.foldl considerEntry []

/-- The live logic of `get_delta` (`src/api/main.py` lines 233-314): an
empty read returns the empty response directly; otherwise the scan result
is converted to the deltas list with its count. -/
def get_delta_live (entries : List PyDict) : List BestOffer × ℕ :=
  if entries.isEmpty then ([], 0)
  else
    let m := get_delta_scan entries
    (m.map (fun kv => kv.2), m.length)

/-- The most recent 500 stream entries, newest first
(`redis_conn.xrevrange("raw_prices", count=500)`). -/
def readFeed (c : Conn) : List PyDict := c.stream.reverse.take 500

/-- The `get_delta` endpoint over the outcome of the stream read: a raising
read is turned into an HTTP 500 (`src/api/main.py` lines 316-321); any
successful read produces a normal response. -/
def get_delta_endpoint (fetched : Except Unit (List PyDict)) : Except Unit (List BestOffer × ℕ) :=
  match fetched with
  | .error e => .error e
  | .ok entries => .ok (get_delta_live entries)

/-- The qualifying contribution of one entry for a given model key. -/
def entryContrib (e : PyDict) (k : PyVal) : List ℚ :=
  match entryQual e with
  | some (gm, p, _, _) => if gm = k then [p] else []
  | none => []

/-- All qualifying prices of a given model key in a list of entries. -/
def qualPrices : List PyDict → PyVal → List ℚ
  | [], _ => []
  | e :: es, k => entryContrib e k ++ qualPrices es k

/-- Invariant of the `get_delta` scan: for every model key, the stored
offer's price is the maximum of the qualifying prices seen so far
(`f` gives the qualifying prices per key); keys without qualifying prices
are absent. -/
def GoodBO (m : List (PyVal × BestOffer)) (f : PyVal → List ℚ) : Prop :=
  ∀ k, match lookupBO m k with
       | some bo => bo.price_usd_hr ∈ f k ∧ ∀ p ∈ f k, p ≤ bo.price_usd_hr
       | none => f k = []

/-! ## Concrete instances referenced by the claims -/

/-- A fresh connection with an empty stream and no planned failures. -/
def conn0 : Conn := ⟨[], 0, 0, fun _ => false, false⟩

/-- A fixed publish timestamp. -/
def ts0 : PyStr := "1700000000".data

/-- The spec's synthetic feed
`(A100, 1.20, aws), (A100, 0.95, akash), (T4, 0.15, aws)` as stream
entries. -/
def feedC1 : List PyDict :=
  [[("gpu_model", .vstr "A100".data), ("price_usd_hr", .vstr "1.20".data),
    ("cloud", .vstr "aws".data), ("timestamp", .vstr "t1".data)],
   [("gpu_model", .vstr "A100".data), ("price_usd_hr", .vstr "0.95".data),
    ("cloud", .vstr "akash".data), ("timestamp", .vstr "t2".data)],
   [("gpu_model", .vstr "T4".data), ("price_usd_hr", .vstr "0.15".data),
    ("cloud", .vstr "aws".data), ("timestamp", .vstr "t3".data)]]

/-- A raw generic-source item carrying only a model and a valid price: its
quality score is 0 (no `gpu_name`/`displayName`, no `dph_total`/`costPerHr`,
no `geolocation`/`region`, no `id`, no `num_gpus`/`availability`). -/
def itemLowQuality : PyDict := [("model", .vstr "A100".data), ("price", .vnum 1)]

/-- An `aws_spot`-path offer whose price (500 $/hr) is far above every
ceiling used in the repository. -/
def awsBadOffer : PyDict :=
  [("model", .vstr "T4".data), ("usd_hr", .vnum 500), ("region", .vstr "us-east-1".data)]

/-- A raw generic-source item with a valid price and an availability value
that is truthy but fails `int()`. -/
def itemBadAvail : PyDict :=
  [("model", .vstr "A100".data), ("price", .vnum 1), ("availability", .vstr "unknown".data)]

/-- A raw generic-source item with a valid price and an explicitly falsy
availability value (0). -/
def itemFalsyAvail : PyDict :=
  [("model", .vstr "A100".data), ("price", .vnum 1), ("availability", .vint 0)]

/-- A provider whose fetch always returns no data. -/
def bAlwaysFail : FetchBehavior := fun _ => .nodata

/-- A provider whose first fetch returns no data and whose retries would
succeed with one publishable record. -/
def bRecover : FetchBehavior := fun i => if i == 0 then .nodata else .ok [itemLowQuality]

/-- Canonical GPU names handled by the normalizers. -/
def gpuNameSamples : List PyStr :=
  ["RTX 4090", "RTX4090", "nvidia rtx 4090", "RTX 4080", "RTX 4070", "H100",
   "A100", "A100 80GB", "A100 40GB", "V100", "T4", "A6000", "Unknown",
   "GPU-Generic", "Rtx 3090"].map String.data

/-- Two stream entries that both fail the `get_delta` filter chain: the
first has no price field, the second an out-of-bounds price. -/
def entsAllFiltered : List PyDict :=
  [[("gpu_model", .vstr "A100".data), ("cloud", .vstr "aws".data)],
   [("gpu_model", .vstr "A100".data), ("price_usd_hr", .vstr "999".data),
    ("cloud", .vstr "aws".data)]]

/-- A complete, valid offer for the publisher. -/
def offerOk : PyDict :=
  [("model", .vstr "T4".data), ("usd_hr", .vnum (mkRat 3 20)), ("region", .vstr "us".data)]

/-- An incomplete offer (no `usd_hr` key): the publisher must skip it. -/
def offerIncomplete : PyDict := [("model", .vstr "T4".data), ("region", .vstr "us".data)]

/-!
# Theorems
-/

/-- `ratFloor` agrees with Mathlib's floor. -/
theorem ratFloor_eq (q : ℚ) : ratFloor q = ⌊q⌋ := Rat.floor_def.symm

/-- `qAdd` agrees with `+`. -/
theorem qAdd_eq (a b : ℚ) : qAdd a b = a + b := by
  rw [qAdd, Rat.mkRat_eq_divInt, Rat.divInt_eq_div]
  have ha : ((a.den : ℚ)) ≠ 0 := by exact_mod_cast a.den_nz
  have hb : ((b.den : ℚ)) ≠ 0 := by exact_mod_cast b.den_nz
  conv_rhs => rw [← Rat.num_div_den a, ← Rat.num_div_den b]
  push_cast
  rw [div_add_div _ _ ha hb]
  ring_nf

/-- `qSub` agrees with `-`. -/
theorem qSub_eq (a b : ℚ) : qSub a b = a - b := by
  rw [qSub, Rat.mkRat_eq_divInt, Rat.divInt_eq_div]
  have ha : ((a.den : ℚ)) ≠ 0 := by exact_mod_cast a.den_nz
  have hb : ((b.den : ℚ)) ≠ 0 := by exact_mod_cast b.den_nz
  conv_rhs => rw [← Rat.num_div_den a, ← Rat.num_div_den b]
  push_cast
  rw [div_sub_div _ _ ha hb]
  ring_nf

/-- `qMul` agrees with `*`. -/
theorem qMul_eq (a b : ℚ) : qMul a b = a * b := by
  rw [qMul, Rat.mkRat_eq_divInt, Rat.divInt_eq_div]
  conv_rhs => rw [← Rat.num_div_den a, ← Rat.num_div_den b]
  push_cast
  rw [div_mul_div_comm]

/-- `mkRat` over a positive power of ten as a division. -/
theorem mkRat_eq_div (n : ℤ) (d : ℕ) : mkRat n d = (n : ℚ) / (d : ℚ) := by
  rw [Rat.mkRat_eq_divInt, Rat.divInt_eq_div]
  norm_num

namespace Scrapper

/-- `roundHalfEven` yields the floor, or the floor plus one and only when
the fractional part is at least one half. -/
theorem roundHalfEven_cases (q : ℚ) :
    roundHalfEven q = ratFloor q ∨
    (roundHalfEven q = ratFloor q + 1 ∧ (1 : ℚ) / 2 ≤ q - (ratFloor q : ℚ)) := by
  have hs : qSub q (mkRat (ratFloor q) 1) = q - (ratFloor q : ℚ) := by
    rw [qSub_eq, Rat.mkRat_one]
  have hh : (mkRat 1 2 : ℚ) = 1 / 2 := by rw [mkRat_eq_div]; norm_num
  simp only [roundHalfEven]
  rw [hs, hh]
  split
  · exact Or.inl rfl
  · next h1 =>
    split
    · next h2 => exact Or.inr ⟨rfl, le_of_lt h2⟩
    · split
      · exact Or.inl rfl
      · exact Or.inr ⟨rfl, le_of_not_lt h1⟩

/-- `roundHalfEven` stays within any pair of integer bounds around its
argument. -/
theorem roundHalfEven_bounds (q : ℚ) (lo hi : ℤ) (h1 : (lo : ℚ) ≤ q) (h2 : q ≤ (hi : ℚ)) :
    lo ≤ roundHalfEven q ∧ roundHalfEven q ≤ hi := by
  have hf : ratFloor q = ⌊q⌋ := ratFloor_eq q
  have hlow : lo ≤ ⌊q⌋ := Int.le_floor.mpr h1
  have hup : ⌊q⌋ ≤ hi := by
    have := Int.floor_le_floor h2
    simpa using this
  rcases roundHalfEven_cases q with h | ⟨h, hhalf⟩ <;> rw [h, hf]
  · exact ⟨hlow, hup⟩
  · constructor
    · omega
    · have hfl : (⌊q⌋ : ℚ) < q := by
        rw [hf] at hhalf
        linarith
      have hcast : (⌊q⌋ : ℚ) < (hi : ℚ) := lt_of_lt_of_le hfl h2
      have : ⌊q⌋ < hi := by exact_mod_cast hcast
      omega

/-- Any price accepted by `validate_price` came from a float in
`[0.001, 100]` and was rounded to a value still within `[0.001, 100]`. -/
theorem validate_price_bounds (v : PyVal) (q : ℚ)
    (h : validate_price v = some q) :
    mkRat 1 1000 ≤ q ∧ q ≤ 100 ∧
      ∃ x, pyFloat v = some x ∧ mkRat 1 1000 ≤ x ∧ x ≤ 100 ∧ q = pyRound4 x := by
  have hmk : (mkRat 1 1000 : ℚ) = 1 / 1000 := by rw [mkRat_eq_div]; norm_num
  rcases hv : pyFloat v with _ | p
  · simp only [validate_price, hv] at h
    exact absurd h (by simp)
  · simp only [validate_price, hv] at h
    split at h
    · exact absurd h (by simp)
    · next hp0 =>
      split at h
      · exact absurd h (by simp)
      · next hp100 =>
        split at h
        · exact absurd h (by simp)
        · next hplow =>
          have hq : q = pyRound4 p := (Option.some.inj h).symm
          rw [hmk] at hplow
          have hp1 : 1 / 1000 ≤ p := le_of_not_lt hplow
          have hp2 : p ≤ 100 := le_of_not_lt hp100
          have hqmul : qMul p (mkRat 10000 1) = p * 10000 := by
            rw [qMul_eq, mkRat_eq_div]
            norm_num
          have hb := roundHalfEven_bounds (qMul p (mkRat 10000 1)) 10 1000000
            (by rw [hqmul]; push_cast; linarith)
            (by rw [hqmul]; push_cast; linarith)
          have hq4 : pyRound4 p
              = (roundHalfEven (qMul p (mkRat 10000 1)) : ℚ) / 10000 := by
            rw [pyRound4, mkRat_eq_div]
            norm_num
          refine ⟨?_, ?_, p, rfl, ?_, ?_, hq⟩
          · rw [hmk, hq, hq4, le_div_iff₀ (by norm_num : (0:ℚ) < 10000)]
            norm_num
            exact_mod_cast hb.1
          · rw [hq, hq4, div_le_iff₀ (by norm_num : (0:ℚ) < 10000)]
            norm_num
            exact_mod_cast hb.2
          · rw [hmk]; exact hp1
          · exact hp2

end Scrapper

/-- `retryLoop` makes at most as many `fetch_data` calls as it has loop
iterations left. -/
theorem retryLoop_calls_le (behavior : FetchBehavior) :
    ∀ (rem attempt : ℕ), (retryLoop behavior attempt rem).2.1 ≤ rem := by
  intro rem
  induction rem with
  | zero => intro attempt; simp [retryLoop]
  | succ n ih =>
    intro attempt
    rcases hb : behavior attempt with d | _ | _ <;> simp only [retryLoop, hb]
    · simp
    all_goals
      split
      · simp
      · simpa using Nat.succ_le_succ (ih (attempt + 1))

/-- A falsy value that `int()` accepts converts to 0. -/
theorem pyInt_falsy_eq_zero (v : PyVal) (n : ℤ)
    (hf : truthy v = false) (hn : pyInt v = some n) : n = 0 := by
  cases v with
  | vnone => simp [pyInt] at hn
  | vstr s =>
    have hs : s = [] := by simpa [truthy] using hf
    subst hs
    simp [pyInt, pyParseInt, pyStrip, parseDigitsAux] at hn
  | vint m =>
    have : m = 0 := by simpa [truthy] using hf
    subst this
    simpa [pyInt] using hn.symm
  | vnum q =>
    have : q = 0 := by simpa [truthy] using hf
    subst this
    have : truncQ 0 = 0 := by decide
    rw [pyInt, this] at hn
    exact (Option.some.inj hn).symm
  | vbool b =>
    have : b = false := by simpa [truthy] using hf
    subst this
    simpa [pyInt] using hn.symm

/-- C4: REFUTED as stated.  GPU-name normalization is not idempotent: on
"NVIDNVIDIA IA X", removing the "NVIDIA " prefix substring exposes a
second occurrence (`str.replace` does not rescan its output), so the first
application yields "Nvidia X" and a second application strips it again —
for both normalizer variants cited by the claim. -/
theorem C4_counterexample_normalize_not_idempotent :
    (Scrapper.normalize_gpu_name (Scrapper.normalize_gpu_name "NVIDNVIDIA IA X".data)
      ≠ Scrapper.normalize_gpu_name "NVIDNVIDIA IA X".data)
    ∧ (IoNet.normalize_gpu_name (IoNet.normalize_gpu_name "NVIDNVIDIA IA X".data)
      ≠ IoNet.normalize_gpu_name "NVIDNVIDIA IA X".data) := by
  decide

/-- C4 (amended): applying either normalizer variant twice yields the same
canonical name on the canonical GPU names the code targets
(`gpuNameSamples`), though not on all strings. -/
theorem C4_amended_idempotent_on_samples (s : PyStr) (h : s ∈ gpuNameSamples) :
    Scrapper.normalize_gpu_name (Scrapper.normalize_gpu_name s)
      = Scrapper.normalize_gpu_name s
    ∧ IoNet.normalize_gpu_name (IoNet.normalize_gpu_name s)
      = IoNet.normalize_gpu_name s := by
  revert s h
  decide

/-- C4 witness: the amended idempotence at the concrete sample "T4". -/
theorem C4_amended_witness :
    ("T4".data ∈ gpuNameSamples)
    ∧ (Scrapper.normalize_gpu_name (Scrapper.normalize_gpu_name "T4".data)
        = Scrapper.normalize_gpu_name "T4".data
      ∧ IoNet.normalize_gpu_name (IoNet.normalize_gpu_name "T4".data)
        = IoNet.normalize_gpu_name "T4".data) :=
  ⟨by decide, C4_amended_idempotent_on_samples "T4".data (by decide)⟩

/-- C10: `validate_price` rejects every positive price below 0.001 (and the
normalization loop drops such records), and it returns a value (the
4-decimal rounding of the parsed float) only for prices within
[0.001, 100]. -/
theorem C10_price_bounds (p : ℚ) (h1 : 0 < p) (h2 : p < mkRat 1 1000) :
    Scrapper.validate_price (.vnum p) = none
    ∧ (∀ src item, (Scrapper.extractFields src item).price = .vnum p →
        Scrapper.processItem src item = none)
    ∧ (∀ v q, Scrapper.validate_price v = some q →
        ∃ x, pyFloat v = some x ∧ mkRat 1 1000 ≤ x ∧ x ≤ 100 ∧ q = Scrapper.pyRound4 x) := by
  have hmk : (mkRat 1 1000 : ℚ) = 1 / 1000 := by rw [mkRat_eq_div]; norm_num
  have h100 : ¬ (p > 100) := by rw [hmk] at h2; push_neg; linarith
  have hv : Scrapper.validate_price (.vnum p) = none := by
    simp only [Scrapper.validate_price, pyFloat,
      if_neg (not_le.mpr h1), if_neg h100, if_pos h2]
  refine ⟨hv, ?_, ?_⟩
  · intro src item hpr
    rcases hg : Scrapper.normalizeGpuVal (Scrapper.extractFields src item).gpu with _ | model
    · simp [Scrapper.processItem, hg]
    · simp [Scrapper.processItem, hg, hpr, hv]
  · intro v q h
    exact (Scrapper.validate_price_bounds v q h).2.2

/-- C10 witness: the concrete sub-threshold price 1/2000 = 0.0005. -/
theorem C10_witness :
    (0 < mkRat 1 2000) ∧ (mkRat 1 2000 < mkRat 1 1000)
    ∧ Scrapper.validate_price (.vnum (mkRat 1 2000)) = none :=
  ⟨by decide, by decide, (C10_price_bounds (mkRat 1 2000) (by decide) (by decide)).1⟩

/-- C2: the claim is right and the code is wrong — no quality gate exists
anywhere on the publish path.  `MIN_DATA_QUALITY_SCORE` (default 0.5) is
defined but never consulted: a generic-source record with only a model and
a valid price scores 0 on quality, yet `normalize_and_publish` publishes it
to the `raw_prices` stream with `data_quality_score` 0 < 0.5. -/
theorem C2_bug_low_quality_published :
    Scrapper.calculate_quality_score itemLowQuality = 0
    ∧ (0 : ℚ) < Scrapper.MIN_DATA_QUALITY_SCORE
    ∧ (normalize_and_publish "io_net" ts0 [itemLowQuality] conn0).1 = 1
    ∧ ((normalize_and_publish "io_net" ts0 [itemLowQuality] conn0).2.stream.map
        (fun p => dgetN p "data_quality_score")) = [.vnum 0] := by
  decide

/-- C9: REFUTED as stated.  A record whose availability field is truthy but
unparseable by `int()` ("unknown") is NOT kept with availability 1: the
`ValueError` is caught by the per-record handler and the whole record is
dropped, although its price is valid. -/
theorem C9_counterexample_avail_drop :
    Scrapper.validate_price (dgetN itemBadAvail "price") = some 1
    ∧ truthy (Scrapper.extractFields "io_net" itemBadAvail).avail = true
    ∧ pyInt (Scrapper.extractFields "io_net" itemBadAvail).avail = none
    ∧ Scrapper.processItem "io_net" itemBadAvail = none
    ∧ (normalize_and_publish "io_net" ts0 [itemBadAvail] conn0).1 = 0
    ∧ (normalize_and_publish "io_net" ts0 [itemBadAvail] conn0).2.stream = [] := by
  decide

/-- C9 (amended): availability defaults to 1 only when the raw value is
falsy (absent, `None`, 0 or empty); when `int()` succeeds the kept record
carries `max 1 n`; and a truthy value on which `int()` raises causes the
whole record to be dropped. -/
theorem C9_amended_availability_semantics :
    (∀ src item off, Scrapper.processItem src item = some off →
      (truthy (Scrapper.extractFields src item).avail = false →
        dgetN off "availability" = .vint 1)
      ∧ (∀ n, pyInt (Scrapper.extractFields src item).avail = some n →
          dgetN off "availability" = .vint (max 1 n)))
    ∧ (∀ src item, truthy (Scrapper.extractFields src item).avail = true →
        pyInt (Scrapper.extractFields src item).avail = none →
        Scrapper.processItem src item = none) := by
  constructor
  · intro src item off h
    rcases hg : Scrapper.normalizeGpuVal (Scrapper.extractFields src item).gpu with _ | model
    · simp [Scrapper.processItem, hg] at h
    rcases hp : Scrapper.validate_price (Scrapper.extractFields src item).price with _ | pq
    · simp [Scrapper.processItem, hg, hp] at h
    rcases ha : Scrapper.availNorm (Scrapper.extractFields src item).avail with _ | a
    · simp [Scrapper.processItem, hg, hp, ha] at h
    by_cases hz : pq = 0
    · simp [Scrapper.processItem, hg, hp, hz] at h
    have hoff : off = [("model", .vstr model), ("usd_hr", .vnum pq),
        ("region", .vstr (Scrapper.regionNorm (Scrapper.extractFields src item).region)),
        ("availability", .vint a),
        ("id", dgetD item "id" (.vstr "".data)),
        ("quality_score", .vnum (Scrapper.calculate_quality_score item))] := by
      simp [Scrapper.processItem, hg, hp, ha, hz] at h
      exact h.symm
    subst hoff
    constructor
    · intro ht
      have ha2 : Scrapper.availNorm (Scrapper.extractFields src item).avail = some 1 := by
        simp [Scrapper.availNorm, ht]
      rw [ha2] at ha
      obtain rfl := Option.some.inj ha
      rfl
    · intro n hn
      rcases htr : truthy (Scrapper.extractFields src item).avail with _ | _
      · have ha2 : Scrapper.availNorm (Scrapper.extractFields src item).avail = some 1 := by
          simp [Scrapper.availNorm, htr]
        rw [ha2] at ha
        obtain rfl := Option.some.inj ha
        have hn0 : n = 0 := pyInt_falsy_eq_zero _ n htr hn
        subst hn0
        rfl
      · have ha2 : Scrapper.availNorm (Scrapper.extractFields src item).avail
            = some (max 1 n) := by
          simp [Scrapper.availNorm, htr, hn]
        rw [ha2] at ha
        obtain rfl := Option.some.inj ha
        rfl
  · intro src item htr hint
    rcases hg : Scrapper.normalizeGpuVal (Scrapper.extractFields src item).gpu with _ | model
    · simp [Scrapper.processItem, hg]
    rcases hp : Scrapper.validate_price (Scrapper.extractFields src item).price with _ | pq
    · simp [Scrapper.processItem, hg, hp]
    by_cases hz : pq = 0
    · simp [Scrapper.processItem, hg, hp, hz]
    have ha : Scrapper.availNorm (Scrapper.extractFields src item).avail = none := by
      simp [Scrapper.availNorm, htr, hint]
    simp [Scrapper.processItem, hg, hp, hz, ha]

/-- C9 witness: a generic item with an explicitly falsy availability (0) is
kept with availability 1. -/
theorem C9_amended_witness :
    (Scrapper.processItem "io_net" itemFalsyAvail).isSome = true
    ∧ truthy (Scrapper.extractFields "io_net" itemFalsyAvail).avail = false
    ∧ (∀ off, Scrapper.processItem "io_net" itemFalsyAvail = some off →
        dgetN off "availability" = .vint 1) :=
  ⟨by decide, by decide,
   fun off h => (C9_amended_availability_semantics.1 "io_net" itemFalsyAvail off h).1 (by decide)⟩

/-- C7: REFUTED as stated.  The retry helper's back-off delays are
`2 ** attempt` seconds, i.e. 1s then 2s — not starting at 2 seconds; and
the ingestion cycle never retries at all: `run_scrape_job` calls
`fetch_data` once per provider (not `fetch_data_with_retry`), so a provider
whose first fetch fails contributes nothing to the cycle even though a
retry would have succeeded with publishable data. -/
theorem C7_counterexample_no_retry_in_cycle :
    (fetch_data_with_retry bAlwaysFail 2).2.2 = [1, 2]
    ∧ [1, 2] ≠ [2, 4]
    ∧ (fetch_data_with_retry bRecover 2).1.isSome = true
    ∧ (run_scrape_job ts0 [("io_net", bRecover)] conn0).1 = 0
    ∧ (run_scrape_job ts0 [("io_net", bRecover)] conn0).2.stream = [] := by
  decide

/-- C7 (amended): `fetch_data_with_retry` (never invoked by the cycle)
makes at most `max_retries + 1 = 3` calls, and on persistent transient
failure makes exactly 3 calls with back-off delays [1, 2] seconds; the
ingestion cycle itself consults only the first fetch outcome of each
provider — a transient failure is given up for the cycle without retry. -/
theorem C7_amended_retry_schedule :
    (∀ behavior mr, (fetch_data_with_retry behavior mr).2.1 ≤ mr + 1)
    ∧ (∀ behavior, (∀ i, behavior i = FetchOutcome.nodata) →
        fetch_data_with_retry behavior 2 = (none, 3, [1, 2]))
    ∧ (∀ ts name b b' rest conn, b 0 = b' 0 →
        run_scrape_job ts ((name, b) :: rest) conn
          = run_scrape_job ts ((name, b') :: rest) conn) := by
  refine ⟨?_, ?_, ?_⟩
  · intro behavior mr
    exact retryLoop_calls_le behavior (mr + 1) 0
  · intro behavior h
    simp [fetch_data_with_retry, retryLoop, h 0, h 1, h 2]
  · intro ts name b b' rest conn h
    simp only [run_scrape_job, List.foldl_cons]
    congr 1
    simp only [scrapeStep, h]

/-- C7 witness: the amended schedule at the always-failing provider. -/
theorem C7_amended_witness :
    (fetch_data_with_retry bAlwaysFail 2).2.1 ≤ 3
    ∧ fetch_data_with_retry bAlwaysFail 2 = (none, 3, [1, 2])
    ∧ run_scrape_job ts0 [("vast.ai", bAlwaysFail)] conn0
        = run_scrape_job ts0 [("vast.ai", fun _ => FetchOutcome.nodata)] conn0 :=
  ⟨C7_amended_retry_schedule.1 bAlwaysFail 2,
   C7_amended_retry_schedule.2.1 bAlwaysFail (fun _ => rfl),
   C7_amended_retry_schedule.2.2 ts0 "vast.ai" bAlwaysFail
     (fun _ => FetchOutcome.nodata) [] conn0 rfl⟩

/-- C8: CONFIRMED.  Provider failures are isolated: a provider whose fetch
raises (the `ConfigError` case included) or returns nothing leaves the
cycle's outcome — the records published for every other provider and the
final stream — exactly as if that provider were absent. -/
theorem C8_provider_isolation (ts : PyStr) (pre post : List (String × FetchBehavior))
    (name : String) (conn : Conn) :
    run_scrape_job ts (pre ++ (name, fun _ => FetchOutcome.raise) :: post) conn
      = run_scrape_job ts (pre ++ post) conn
    ∧ run_scrape_job ts (pre ++ (name, fun _ => FetchOutcome.nodata) :: post) conn
      = run_scrape_job ts (pre ++ post) conn := by
  constructor <;> simp [run_scrape_job, List.foldl_append, scrapeStep]

/-- C5: CONFIRMED.  Over a feed that is empty or in which no entry passes
the scan filters, `/delta` returns the empty response (deltas `[]`, count
0) without an error; the 500-equivalent arises exactly when the stream
read itself raises. -/
theorem C5_empty_or_filtered_feed_ok (entries : List PyDict)
    (h : ∀ e ∈ entries, entryQual e = none) :
    get_delta_endpoint (.ok entries) = .ok ([], 0)
    ∧ get_delta_endpoint (.error ()) = .error () := by
  constructor
  · have hscan : ∀ (es : List PyDict), (∀ e ∈ es, entryQual e = none) →
        ∀ m, es.foldl considerEntry m = m := by
      intro es
      induction es with
      | nil => intro _ m; rfl
      | cons e es ih =>
        intro hall m
        have he : entryQual e = none := hall e (by simp)
        simp only [List.foldl_cons, considerEntry, he]
        exact ih (fun x hx => hall x (by simp [hx])) m
    by_cases hemp : entries.isEmpty = true
    · simp [get_delta_endpoint, get_delta_live, hemp]
    · simp [get_delta_endpoint, get_delta_live, hemp, get_delta_scan,
        hscan entries h []]
  · rfl

/-- C5 witness: two entries that both fail the filters (one without a price
field, one with an out-of-bounds price) produce the empty response; a
raising read produces the 500. -/
theorem C5_witness :
    (∀ e ∈ entsAllFiltered, entryQual e = none)
    ∧ get_delta_endpoint (.ok entsAllFiltered) = .ok ([], 0)
    ∧ get_delta_endpoint (.error ()) = .error () :=
  ⟨by decide, (C5_empty_or_filtered_feed_ok entsAllFiltered (by decide)).1,
   (C5_empty_or_filtered_feed_ok entsAllFiltered (by decide)).2⟩

/-- Lookup after setting the same key. -/
theorem lookupBO_setBO_self (m : List (PyVal × BestOffer)) (k : PyVal) (v : BestOffer) :
    lookupBO (setBO m k v) k = some v := by
  induction m with
  | nil => simp [setBO, lookupBO]
  | cons kv rest ih =>
    by_cases hk : kv.1 = k
    · simp [setBO, hk, lookupBO]
    · simp [setBO, hk, lookupBO, ih]

/-- Lookup after setting a different key. -/
theorem lookupBO_setBO_ne (m : List (PyVal × BestOffer)) (k k2 : PyVal) (v : BestOffer)
    (h : k2 ≠ k) :
    lookupBO (setBO m k v) k2 = lookupBO m k2 := by
  induction m with
  | nil => simp [setBO, lookupBO, Ne.symm h]
  | cons kv rest ih =>
    by_cases hk : kv.1 = k
    · subst hk
      simp [setBO, lookupBO, Ne.symm h]
    · by_cases hk2 : kv.1 = k2
      · simp [setBO, hk, lookupBO, hk2, h]
      · simp [setBO, hk, lookupBO, hk2, ih]

/-- One scan step preserves the max-per-model invariant, extended with the
entry's qualifying contribution. -/
theorem GoodBO_considerEntry (m : List (PyVal × BestOffer)) (f : PyVal → List ℚ)
    (e : PyDict) (h : GoodBO m f) :
    GoodBO (considerEntry m e) (fun k => f k ++ entryContrib e k) := by
  intro k
  rcases hq : entryQual e with _ | ⟨gm, p, cl, tsv⟩
  · simp only [considerEntry, hq, entryContrib, List.append_nil]
    exact h k
  · rcases hl : lookupBO m gm with _ | bo
    · simp only [considerEntry, hq, hl]
      by_cases hk : k = gm
      · subst hk
        have hfk : f k = [] := by have hh := h k; rw [hl] at hh; exact hh
        rw [lookupBO_setBO_self]
        simp [entryContrib, hq, hfk]
      · rw [lookupBO_setBO_ne _ _ _ _ hk]
        have hc : entryContrib e k = [] := by
          simp only [entryContrib, hq, if_neg (fun hh : gm = k => hk hh.symm)]
        rw [hc, List.append_nil]
        exact h k
    · simp only [considerEntry, hq, hl]
      by_cases hp : p > bo.price_usd_hr
      · rw [if_pos hp]
        by_cases hk : k = gm
        · subst hk
          have hbo := h k
          rw [hl] at hbo
          rw [lookupBO_setBO_self]
          simp only [entryContrib, hq, if_pos rfl]
          refine ⟨List.mem_append_right _ (by simp), ?_⟩
          intro q hq2
          rcases List.mem_append.mp hq2 with h1 | h1
          · exact le_of_lt (lt_of_le_of_lt (hbo.2 q h1) hp)
          · simp at h1
            subst h1
            exact le_refl _
        · rw [lookupBO_setBO_ne _ _ _ _ hk]
          have hc : entryContrib e k = [] := by
            simp only [entryContrib, hq, if_neg (fun hh : gm = k => hk hh.symm)]
          rw [hc, List.append_nil]
          exact h k
      · rw [if_neg hp]
        by_cases hk : k = gm
        · subst hk
          have hbo := h k
          rw [hl] at hbo
          rw [hl]
          simp only [entryContrib, hq, if_pos rfl]
          refine ⟨List.mem_append_left _ hbo.1, ?_⟩
          intro q hq2
          rcases List.mem_append.mp hq2 with h1 | h1
          · exact hbo.2 q h1
          · simp at h1
            subst h1
            exact le_of_not_lt hp
        · have hc : entryContrib e k = [] := by
            simp only [entryContrib, hq, if_neg (fun hh : gm = k => hk hh.symm)]
          rw [hc, List.append_nil]
          exact h k

/-- The whole scan preserves the max-per-model invariant. -/
theorem GoodBO_foldl (es : List PyDict) :
    ∀ (m : List (PyVal × BestOffer)) (f : PyVal → List ℚ), GoodBO m f →
      GoodBO (es.foldl considerEntry m) (fun k => f k ++ qualPrices es k) := by
  induction es with
  | nil =>
    intro m f h k
    simpa [qualPrices] using h k
  | cons e es ih =>
    intro m f h k
    have h3 := ih (considerEntry m e) _ (GoodBO_considerEntry m f e h) k
    simp only [List.foldl_cons, qualPrices]
    rw [← List.append_assoc]
    exact h3

/-- C1: REFUTED as stated.  On the spec's synthetic feed the `/delta`
aggregation keeps, per GPU model, the offer with the MAXIMUM price
("Update if this is the highest price for this GPU model"), not the
minimum: A100 resolves to 1.20 (aws), not to 0.95 (akash). -/
theorem C1_counterexample_delta_keeps_max :
    ((get_delta_live feedC1).1.map (fun b => (b.gpu_model, b.best_source, b.price_usd_hr))
      = [(.vstr "A100".data, .vstr "aws".data, mkRat 6 5),
         (.vstr "T4".data, .vstr "aws".data, mkRat 3 20)])
    ∧ (get_delta_live feedC1).2 = 2
    ∧ ¬ (∃ b ∈ (get_delta_live feedC1).1, b.gpu_model = .vstr "A100".data
          ∧ b.price_usd_hr = mkRat 19 20 ∧ b.best_source = .vstr "akash".data) := by
  decide

/-- C1 (amended): for every feed, the `/delta` scan returns for each GPU
model present the offer with the MAXIMUM `price_usd_per_hour` among the
qualifying entries (the operator/yield view) — in the spec's instance
A100 resolves to 1.20 (aws) and T4 to 0.15 (aws); the deltas list is the
scan's values. -/
theorem C1_amended_max_price_per_model (entries : List PyDict) (k : PyVal) (bo : BestOffer)
    (h : lookupBO (get_delta_scan entries) k = some bo) :
    bo.price_usd_hr ∈ qualPrices entries k
    ∧ (∀ p ∈ qualPrices entries k, p ≤ bo.price_usd_hr)
    ∧ (entries = [] ∨
        (get_delta_live entries).1 = (get_delta_scan entries).map (fun kv => kv.2)) := by
  have h0 : GoodBO [] (fun _ => []) := by
    intro k2
    simp [lookupBO]
  have h1 := GoodBO_foldl entries [] (fun _ => []) h0 k
  rw [get_delta_scan] at h
  rw [h] at h1
  simp only [List.nil_append] at h1
  refine ⟨h1.1, h1.2, ?_⟩
  cases entries with
  | nil => exact Or.inl rfl
  | cons e es =>
    exact Or.inr (by simp [get_delta_live])

/-- C1 witness: the amended max-rule at the spec's synthetic feed — the
A100 entry of the scan is the aws offer at 1.20. -/
theorem C1_amended_witness :
    lookupBO (get_delta_scan feedC1) (.vstr "A100".data)
      = some ⟨.vstr "A100".data, .vstr "aws".data, mkRat 6 5, .vstr "t1".data⟩
    ∧ mkRat 6 5 ∈ qualPrices feedC1 (.vstr "A100".data)
    ∧ (∀ p ∈ qualPrices feedC1 (.vstr "A100".data), p ≤ mkRat 6 5) := by
  have h := C1_amended_max_price_per_model feedC1 (.vstr "A100".data)
    ⟨.vstr "A100".data, .vstr "aws".data, mkRat 6 5, .vstr "t1".data⟩ (by decide)
  exact ⟨by decide, h.1, h.2.1⟩

/-- One publish step keeps the count/appended balance. -/
theorem publishOne_appended (src : String) (ts : PyStr) (n : ℕ) (c : Conn) (o : PyDict) :
    (publishOne src ts (n, c) o).2.appended + n
      = (publishOne src ts (n, c) o).1 + c.appended := by
  rcases hm : mkPayload src ts o with _ | pld
  · simp only [publishOne, hm]
    omega
  · by_cases hf : c.xaddFail c.ops
    · simp only [publishOne, hm, xadd, hf, if_pos, if_neg]
      simp
      omega
    · simp only [publishOne, hm, xadd, hf]
      simp
      omega

/-- The publish fold keeps the count/appended balance. -/
theorem foldl_publishOne_appended (src : String) (ts : PyStr) (offers : List PyDict) :
    ∀ (n : ℕ) (c : Conn),
      (offers.foldl (publishOne src ts) (n, c)).2.appended + n
        = (offers.foldl (publishOne src ts) (n, c)).1 + c.appended := by
  induction offers with
  | nil =>
    intro n c
    simp only [List.foldl_nil]
    omega
  | cons o os ih =>
    intro n c
    have h1 := publishOne_appended src ts n c o
    have h2 := ih (publishOne src ts (n, c) o).1 (publishOne src ts (n, c) o).2
    simp only [List.foldl_cons]
    rw [show ((publishOne src ts (n, c) o).1, (publishOne src ts (n, c) o).2)
        = publishOne src ts (n, c) o from rfl] at h2
    omega

/-- Trimming never touches the appended counter. -/
theorem xtrim_appended (c : Conn) : (xtrim c).appended = c.appended := by
  rw [xtrim]
  split <;> rfl

/-- `publish_to_redis` returns exactly the number of records it appended to
the stream (the growth of the `appended` counter, which trimming does not
affect). -/
theorem publish_appended (src : String) (ts : PyStr) (offers : List PyDict) (conn : Conn) :
    (publish_to_redis src ts offers conn).2.appended
      = (publish_to_redis src ts offers conn).1 + conn.appended := by
  rw [publish_to_redis]
  split
  · simp
  · have h := foldl_publishOne_appended src ts offers 0 conn
    simp only [xtrim_appended]
    omega

/-- An offer whose payload construction fails is skipped without affecting
the rest of the batch. -/
theorem publish_skip (src : String) (ts : PyStr) (pre : List PyDict) (bad : PyDict)
    (post : List PyDict) (conn : Conn) (hbad : mkPayload src ts bad = none)
    (hne : pre ++ post ≠ []) :
    publish_to_redis src ts (pre ++ bad :: post) conn
      = publish_to_redis src ts (pre ++ post) conn := by
  have hstep : ∀ acc : ℕ × Conn, publishOne src ts acc bad = acc := by
    intro acc
    simp [publishOne, hbad]
  have h1 : (pre ++ bad :: post).isEmpty = false := by
    cases pre <;> simp
  have h2 : (pre ++ post).isEmpty = false := by
    simpa [List.isEmpty_iff] using hne
  simp [publish_to_redis, h1, h2, List.foldl_append, hstep]

/-- The publish fold is oblivious to the `trimFail` flag. -/
theorem foldl_publishOne_trimFail (src : String) (ts : PyStr) (offers : List PyDict) :
    ∀ (n : ℕ) (c : Conn) (b : Bool),
      offers.foldl (publishOne src ts) (n, { c with trimFail := b })
        = ((offers.foldl (publishOne src ts) (n, c)).1,
           { (offers.foldl (publishOne src ts) (n, c)).2 with trimFail := b }) := by
  induction offers with
  | nil => intro n c b; rfl
  | cons o os ih =>
    intro n c b
    have hstep : publishOne src ts (n, { c with trimFail := b }) o
        = ((publishOne src ts (n, c) o).1,
           { (publishOne src ts (n, c) o).2 with trimFail := b }) := by
      rcases hm : mkPayload src ts o with _ | pld
      · simp [publishOne, hm]
      · by_cases hf : c.xaddFail c.ops
        · simp [publishOne, hm, xadd, hf]
        · simp [publishOne, hm, xadd, hf]
    simp only [List.foldl_cons, hstep]
    exact ih (publishOne src ts (n, c) o).1 (publishOne src ts (n, c) o).2 b

/-- A trim failure never changes the returned publish count. -/
theorem publish_count_trimFail (src : String) (ts : PyStr) (offers : List PyDict)
    (conn : Conn) (b : Bool) :
    (publish_to_redis src ts offers { conn with trimFail := b }).1
      = (publish_to_redis src ts offers conn).1 := by
  rw [publish_to_redis, publish_to_redis]
  split
  · rfl
  · simp only [foldl_publishOne_trimFail]

/-- C6: CONFIRMED.  `publish_to_redis` returns exactly the number of
records appended to the feed; an offer whose payload construction fails
(malformed/incomplete) is skipped without aborting the rest of the batch;
and the trim step's failure never changes the publish outcome. -/
theorem C6_publish_contract (source : String) (ts : PyStr) (offers : List PyDict)
    (conn : Conn) :
    (publish_to_redis source ts offers conn).2.appended
      = (publish_to_redis source ts offers conn).1 + conn.appended
    ∧ (∀ pre bad post, offers = pre ++ bad :: post → mkPayload source ts bad = none →
        pre ++ post ≠ [] →
        publish_to_redis source ts offers conn
          = publish_to_redis source ts (pre ++ post) conn)
    ∧ (∀ b, (publish_to_redis source ts offers { conn with trimFail := b }).1
        = (publish_to_redis source ts offers conn).1) :=
  ⟨publish_appended source ts offers conn,
   fun pre bad post heq h1 h2 => heq ▸ publish_skip source ts pre bad post conn h1 h2,
   fun b => publish_count_trimFail source ts offers conn b⟩

/-- C6 witness: a batch of one valid and one incomplete offer — the count
balances, the incomplete offer is skipped, and the count is independent of
the trim flag. -/
theorem C6_witness :
    (publish_to_redis "io_net" ts0 [offerOk, offerIncomplete] conn0).2.appended
      = (publish_to_redis "io_net" ts0 [offerOk, offerIncomplete] conn0).1 + conn0.appended
    ∧ publish_to_redis "io_net" ts0 [offerOk, offerIncomplete] conn0
        = publish_to_redis "io_net" ts0 [offerOk] conn0
    ∧ (∀ b,
        (publish_to_redis "io_net" ts0 [offerOk, offerIncomplete]
          { conn0 with trimFail := b }).1
        = (publish_to_redis "io_net" ts0 [offerOk, offerIncomplete] conn0).1) :=
  ⟨(C6_publish_contract "io_net" ts0 [offerOk, offerIncomplete] conn0).1,
   (C6_publish_contract "io_net" ts0 [offerOk, offerIncomplete] conn0).2.1
     [offerOk] offerIncomplete [] rfl (by decide) (by decide),
   (C6_publish_contract "io_net" ts0 [offerOk, offerIncomplete] conn0).2.2⟩

/-- A standardized offer's `usd_hr` value is the validated price of its raw
item. -/
theorem processItem_usd (src : String) (item off : PyDict)
    (h : Scrapper.processItem src item = some off) :
    ∃ q, dgetN off "usd_hr" = .vnum q
      ∧ Scrapper.validate_price (Scrapper.extractFields src item).price = some q := by
  rcases hg : Scrapper.normalizeGpuVal (Scrapper.extractFields src item).gpu with _ | model
  · simp [Scrapper.processItem, hg] at h
  rcases hp : Scrapper.validate_price (Scrapper.extractFields src item).price with _ | pq
  · simp [Scrapper.processItem, hg, hp] at h
  rcases ha : Scrapper.availNorm (Scrapper.extractFields src item).avail with _ | a
  · simp [Scrapper.processItem, hg, hp, ha] at h
  by_cases hz : pq = 0
  · simp [Scrapper.processItem, hg, hp, hz] at h
  have hoff : off = [("model", .vstr model), ("usd_hr", .vnum pq),
      ("region", .vstr (Scrapper.regionNorm (Scrapper.extractFields src item).region)),
      ("availability", .vint a),
      ("id", dgetD item "id" (.vstr "".data)),
      ("quality_score", .vnum (Scrapper.calculate_quality_score item))] := by
    simp [Scrapper.processItem, hg, hp, ha, hz] at h
    exact h.symm
  subst hoff
  exact ⟨pq, rfl, rfl⟩

/-- The payload built for an offer carries the offer's `usd_hr` value as
its `price_usd_hr` field. -/
theorem mkPayload_price (src : String) (ts : PyStr) (off pld : PyDict) (q : ℚ)
    (hu : dgetN off "usd_hr" = .vnum q) (h : mkPayload src ts off = some pld) :
    dgetN pld "price_usd_hr" = .vnum q := by
  simp only [mkPayload, hu, pyFloat] at h
  split at h
  · exact absurd h (by simp)
  · obtain rfl := Option.some.inj h
    simp [dgetN, dgetD, dget, List.cons_append, List.find?_cons]

/-- A record in the stream after one publish step was already there or is
the payload of the step's offer. -/
theorem publishOne_stream_sub (src : String) (ts : PyStr) (acc : ℕ × Conn) (o : PyDict) :
    ∀ p ∈ (publishOne src ts acc o).2.stream,
      p ∈ acc.2.stream ∨ mkPayload src ts o = some p := by
  intro p hp
  rcases hm : mkPayload src ts o with _ | pld
  · rw [publishOne, hm] at hp
    exact Or.inl hp
  · rw [publishOne, hm] at hp
    by_cases hf : acc.2.xaddFail acc.2.ops
    · simp [xadd, hf] at hp
      exact Or.inl hp
    · simp [xadd, hf] at hp
      rcases hp with hp | hp
      · exact Or.inl hp
      · subst hp
        exact Or.inr rfl

/-- A record in the stream after the publish fold was already there or is
the payload of one of the batch's offers. -/
theorem foldl_stream_sub (src : String) (ts : PyStr) (offers : List PyDict) :
    ∀ (acc : ℕ × Conn) (p : PyDict), p ∈ (offers.foldl (publishOne src ts) acc).2.stream →
      p ∈ acc.2.stream ∨ ∃ o ∈ offers, mkPayload src ts o = some p := by
  induction offers with
  | nil =>
    intro acc p hp
    exact Or.inl hp
  | cons o os ih =>
    intro acc p hp
    rcases ih (publishOne src ts acc o) p hp with h | ⟨o2, ho2, hp2⟩
    · rcases publishOne_stream_sub src ts acc o p h with h2 | h2
      · exact Or.inl h2
      · exact Or.inr ⟨o, by simp, h2⟩
    · exact Or.inr ⟨o2, by simp [ho2], hp2⟩

/-- Trimming only removes records. -/
theorem xtrim_stream_sub (c : Conn) (p : PyDict) (h : p ∈ (xtrim c).stream) :
    p ∈ c.stream := by
  rw [xtrim] at h
  split at h
  · exact h
  · generalize c.stream.length - 50000 = n at h
    exact List.mem_of_mem_drop h

/-- A record in the stream after `publish_to_redis` was already there or is
the payload of one of the batch's offers. -/
theorem publish_stream_sub (src : String) (ts : PyStr) (offers : List PyDict)
    (conn : Conn) (p : PyDict)
    (h : p ∈ (publish_to_redis src ts offers conn).2.stream) :
    p ∈ conn.stream ∨ ∃ o ∈ offers, mkPayload src ts o = some p := by
  rw [publish_to_redis] at h
  split at h
  · exact Or.inl h
  · exact foldl_stream_sub src ts offers (0, conn) p (xtrim_stream_sub _ p h)

/-- C3: REFUTED as stated.  The `aws_spot` publish path applies no price
validation at all: an offer priced at 500 $/hr — far above every ceiling in
the repository — is published to the feed unchanged. -/
theorem C3_counterexample_aws_path_unbounded :
    (normalize_and_publish "aws_spot" ts0 [awsBadOffer] conn0).1 = 1
    ∧ ((normalize_and_publish "aws_spot" ts0 [awsBadOffer] conn0).2.stream.map
        (fun p => dgetN p "price_usd_hr")) = [.vnum 500]
    ∧ ¬ ((500 : ℚ) ≤ 100) := by
  decide

/-- C3 (amended): on every non-`aws_spot` publish path, each record a
publish adds to the feed carries a price within [0.001, 100] (hence
`0 < price ≤ 100`, the generic ceiling); the `aws_spot` path is exempt
from any bound. -/
theorem C3_amended_generic_path_price_bounds (source : String) (ts : PyStr)
    (data : List PyDict) (conn : Conn) (hsrc : source ≠ "aws_spot") :
    ∀ p ∈ (normalize_and_publish source ts data conn).2.stream,
      p ∈ conn.stream
      ∨ ∃ q, dgetN p "price_usd_hr" = .vnum q ∧ mkRat 1 1000 ≤ q ∧ q ≤ 100 := by
  intro p hp
  rw [normalize_and_publish, if_neg hsrc] at hp
  rcases publish_stream_sub source ts _ conn p hp with h | ⟨o, ho, hpay⟩
  · exact Or.inl h
  · obtain ⟨item, hitem, hproc⟩ := List.mem_filterMap.mp ho
    obtain ⟨q, hu, hv⟩ := processItem_usd source item o hproc
    have hb := Scrapper.validate_price_bounds _ _ hv
    exact Or.inr ⟨q, mkPayload_price source ts o p q hu hpay, hb.1, hb.2.1⟩

/-- C3 witness: the bound at a concrete generic-source publish. -/
theorem C3_amended_witness :
    ("io_net" : String) ≠ "aws_spot"
    ∧ (∀ p ∈ (normalize_and_publish "io_net" ts0 [itemLowQuality] conn0).2.stream,
        p ∈ conn0.stream
        ∨ ∃ q, dgetN p "price_usd_hr" = .vnum q ∧ mkRat 1 1000 ≤ q ∧ q ≤ 100) :=
  ⟨by decide,
   C3_amended_generic_path_price_bounds "io_net" ts0 [itemLowQuality] conn0 (by decide)⟩

end GpuYield
